import Mathlib

/-!
# Verification of the Figma CSS-to-component transpiler core

Shallow embedding of `src/lib/figma-css-parser.ts` and (for the memoized
parser) `src/lib/performance.ts` of the dashboard-compass-ui repository.

Strings are modelled as `List Char` (`Str`), with JavaScript string
operations (`trim`, `split`, `includes`, `startsWith`, template literals)
translated to explicit recursive functions.  Every regular expression in
the source is small enough that its JavaScript backtracking behaviour can
be derived into an equivalent deterministic character scanner; each
scanner below carries a comment naming the regex it implements and the
derivation of the deterministic form.  Character case mapping is modelled
for ASCII (the inputs of all concrete theorems are ASCII).

A JavaScript `undefined` flowing out of a destructuring
(`const [property, value] = decl.split(':')`) is modelled as
`Option Str` with `none` for `undefined`; calling a string method on
`undefined` (a `TypeError` at run time) is modelled by `Except Unit`,
`.error ()` standing for the thrown exception.
-/

/-- JavaScript strings, modelled as lists of characters. -/
abbrev Str := List Char

/-- Coerce a Lean string literal to the model type. -/
def str (s : String) : Str := s.data

/-- ASCII whitespace as matched by JavaScript `\s` and `String.trim`
(restricted to the ASCII range, sufficient for all inputs considered). -/
def isWsChar (c : Char) : Bool :=
  c = ' ' || c = '\n' || c = '\t' || c = '\r' || c = '\x0b' || c = '\x0c'

/-- JavaScript `String.prototype.trim` (ASCII whitespace). -/
def trim (s : Str) : Str :=
  ((s.dropWhile isWsChar).reverse.dropWhile isWsChar).reverse

/-- JavaScript `String.prototype.split(sep)` for a single-character
separator: keeps empty fields, `"".split(c) = [""]`. -/
def splitOnChar (sep : Char) : Str → List Str
  | [] => [[]]
  | c :: rest =>
    if c = sep then [] :: splitOnChar sep rest
    else
      match splitOnChar sep rest with
      | r :: rs => (c :: r) :: rs
      | [] => [[c]]

/-- Worker for `jsSplitWs`; the fuel only bounds recursion and is never
exhausted when it starts at `length + 1`. -/
def jsSplitWsGo : Nat → Str → List Str
  | 0, _ => [[]]
  | _ + 1, [] => [[]]
  | fuel + 1, s =>
    let field := s.takeWhile (fun c => !isWsChar c)
    match s.dropWhile (fun c => !isWsChar c) with
    | [] => [field]
    | _ :: r2 => field :: jsSplitWsGo fuel (r2.dropWhile isWsChar)

/-- JavaScript `String.prototype.split(/\s+/)`: fields between maximal
whitespace runs; a leading or trailing whitespace run contributes an
empty field, and `"".split` gives `[""]`. -/
def jsSplitWs (s : Str) : List Str := jsSplitWsGo (s.length + 1) s

/-- `hay` starts with `pat` (JavaScript `startsWith`). -/
def strStarts : Str → Str → Bool
  | _, [] => true
  | [], _ :: _ => false
  | c :: h, d :: p => c = d && strStarts h p

/-- `hay` ends with `pat` (JavaScript `endsWith`). -/
def strEnds (hay pat : Str) : Bool :=
  strStarts hay.reverse pat.reverse

/-- JavaScript `String.prototype.includes`. -/
def hasSubstr : Str → Str → Bool
  | hay, needle =>
    if strStarts hay needle then true
    else
      match hay with
      | [] => false
      | _ :: t => hasSubstr t needle

/-- Index of the first occurrence of a character, if any. -/
def idxOf? (c : Char) : Str → Option Nat
  | [] => none
  | d :: rest => if d = c then some 0 else (idxOf? c rest).map (· + 1)

/-- ASCII upper-casing of one character, the effect of JavaScript
`toUpperCase` on the ASCII inputs considered here. -/
def asciiUpper : Char → Char
  | 'a' => 'A' | 'b' => 'B' | 'c' => 'C' | 'd' => 'D' | 'e' => 'E'
  | 'f' => 'F' | 'g' => 'G' | 'h' => 'H' | 'i' => 'I' | 'j' => 'J'
  | 'k' => 'K' | 'l' => 'L' | 'm' => 'M' | 'n' => 'N' | 'o' => 'O'
  | 'p' => 'P' | 'q' => 'Q' | 'r' => 'R' | 's' => 'S' | 't' => 'T'
  | 'u' => 'U' | 'v' => 'V' | 'w' => 'W' | 'x' => 'X' | 'y' => 'Y'
  | 'z' => 'Z'
  | c => c

/-- ASCII lower-casing of one character (JavaScript `toLowerCase`). -/
def asciiLower : Char → Char
  | 'A' => 'a' | 'B' => 'b' | 'C' => 'c' | 'D' => 'd' | 'E' => 'e'
  | 'F' => 'f' | 'G' => 'g' | 'H' => 'h' | 'I' => 'i' | 'J' => 'j'
  | 'K' => 'k' | 'L' => 'l' | 'M' => 'm' | 'N' => 'n' | 'O' => 'o'
  | 'P' => 'p' | 'Q' => 'q' | 'R' => 'r' | 'S' => 's' | 'T' => 't'
  | 'U' => 'u' | 'V' => 'v' | 'W' => 'w' | 'X' => 'x' | 'Y' => 'y'
  | 'Z' => 'z'
  | c => c

/-- The regex class `\w` = `[A-Za-z0-9_]`. -/
def isWordChar (c : Char) : Bool := c.isAlphanum || c = '_'

/-- The regex class `[\w-]` used by the custom-property pattern. -/
def isWordDash (c : Char) : Bool := isWordChar c || c = '-'

/-- The regex class `[a-zA-Z0-9-_]` of the class-selector patterns. -/
def isClassChar (c : Char) : Bool := c.isAlphanum || c = '-' || c = '_'

/-- Hex digit, the class `[0-9a-fA-F]` of the color pattern. -/
def isHexCh (c : Char) : Bool :=
  c.isDigit || ('a' ≤ c && c ≤ 'f') || ('A' ≤ c && c ≤ 'F')

/-- Decimal rendering of a JavaScript number holding `length`. -/
def natStr (n : Nat) : Str := (Nat.repr n).data

/-- JavaScript `a || b` on strings: the empty string is falsy. -/
def jsOr (s d : Str) : Str := if s.isEmpty then d else s

/-- Concatenate a list of strings with a separator (`Array.join`). -/
def joinWith (sep : Str) : List Str → Str
  | [] => []
  | [x] => x
  | x :: rest => x ++ sep ++ joinWith sep rest

/-- JavaScript object property assignment `obj[key] = v` on an
insertion-ordered record: updating an existing key keeps its position,
a new key is appended. -/
def jsRecordSet (m : List (Str × α)) (k : Str) (v : α) : List (Str × α) :=
  match m with
  | [] => [(k, v)]
  | (k0, v0) :: rest =>
    if k0 = k then (k0, v) :: rest else (k0, v0) :: jsRecordSet rest k v

/-- Lookup in an insertion-ordered record / `Map`. -/
def assocGet (m : List (Str × α)) (k : Str) : Option α :=
  match m with
  | [] => none
  | (k0, v0) :: rest => if k0 = k then some v0 else assocGet rest k

/-- JavaScript `Set.add`: keep insertion order, ignore duplicates. -/
def jsSetAdd (s : List Str) (x : Str) : List Str :=
  if s.contains x then s else s ++ [x]

/-!
## Regex scanners

Each scanner below is the hand-derived deterministic form of one regular
expression appearing in `figma-css-parser.ts` or `performance.ts`, under
JavaScript leftmost-match / greedy-with-backtracking semantics.  The
derivations are noted at each definition.  Global (`/g`) scanning resumes
after the end of each match and advances one character after a failed
attempt, exactly as `RegExp.prototype.exec` does.
-/

/-- Greedy `\s*([^*\n]+)\s*` against a comment body `c` (the text strictly
between `/*` and the next `*/`, which by construction contains no `*`):
try the whitespace-prefix length `w` from maximal down to `0`; for a given
`w` the group greedily runs to the first newline at or after `w` (position
`g`); the trailing `\s*` then has to consume everything up to the closing
`*/`, which succeeds exactly when the tail from `g` is all whitespace
(`g ≥ sufStart`, where `sufStart` begins the maximal whitespace suffix)
and the group is non-empty (`g ≥ w + 1`). -/
def a1PickGo : Nat → Str → Option Str
  | w, c =>
    let g := w + ((c.drop w).takeWhile (fun ch => ch ≠ '\n')).length
    let sufStart := c.length - (c.reverse.takeWhile isWsChar).length
    if g ≥ max (w + 1) sufStart then some ((c.drop w).take (g - w))
    else
      match w with
      | 0 => none
      | w' + 1 => a1PickGo w' c

/-- Capture of `/\/\*\s*([^*\n]+)\s*\*\//` given the text after `/*`.
Returns the capture and the number of characters consumed after `/*`.
Since neither the group nor `\s*` can cross a `*`, the closing `*/` can
only be the first `*` after the opener. -/
def tryCommentNoNl (t : Str) : Option (Str × Nat) :=
  match idxOf? '*' t with
  | none => none
  | some q =>
    if (t.drop (q + 1)).head? = some '/' then
      match a1PickGo ((t.take q).takeWhile isWsChar).length (t.take q) with
      | some cap => some (cap, q + 2)
      | none => none
    else none

/-- Global scan of `/\/\*\s*([^*\n]+)\s*\*\//g` over the whole text
(used both for the first-comment lookup, via `head?`, and for the
`allComments` list).  Produces `(full match, capture)` pairs. -/
def commentScanGo : Nat → Str → List (Str × Str)
  | 0, _ => []
  | _ + 1, [] => []
  | fuel + 1, '/' :: '*' :: t =>
    (match tryCommentNoNl t with
     | some (cap, k) => (str "/*" ++ t.take k, cap) :: commentScanGo fuel (t.drop k)
     | none => commentScanGo fuel ('*' :: t))
  | fuel + 1, _ :: rest => commentScanGo fuel rest

def commentScan (css : Str) : List (Str × Str) :=
  commentScanGo (css.length + 1) css

/-- Capture of the block-splitting pattern `/\/\*\s*([^*]+)\s*\*\//g`
given the text after `/*`.  Here the group may contain newlines, so the
greedy group runs all the way to the closing `*`; the leading `\s*`
takes the maximal whitespace prefix but leaves at least one character
for the group. -/
def tryCommentAny (t : Str) : Option (Str × Nat) :=
  match idxOf? '*' t with
  | none => none
  | some q =>
    if (t.drop (q + 1)).head? = some '/' && q ≥ 1 then
      let c := t.take q
      some (c.drop (min (c.takeWhile isWsChar).length (q - 1)), q + 2)
    else none

/-- `css.split(/\/\*\s*([^*]+)\s*\*\//g)` as used by the comment-block
splitter: the parts between matches interleaved with the captures, so the
result is `[before₁, capture₁, between₁₂, capture₂, …, after]`. -/
def commentSplitGo : Nat → Str → Str → List Str
  | 0, acc, _ => [acc.reverse]
  | _ + 1, acc, [] => [acc.reverse]
  | fuel + 1, acc, '/' :: '*' :: t =>
    (match tryCommentAny t with
     | some (cap, k) => acc.reverse :: cap :: commentSplitGo fuel [] (t.drop k)
     | none => commentSplitGo fuel ('/' :: acc) ('*' :: t))
  | fuel + 1, acc, c :: rest => commentSplitGo fuel (c :: acc) rest

def commentSplitParts (css : Str) : List Str :=
  commentSplitGo (css.length + 1) [] css

/-- Global scan of `/([^{]+)\s*\{([^}]+)\}/g`.  The greedy `([^{]+)` runs
exactly up to the first `{` (backtracking cannot help, since `\s*` and the
literal `{` cannot absorb a non-`{` character), and `([^}]+)` runs to the
first `}`; each must be non-empty.  Returns `(full, selector, body)`. -/
def ruleScanGo : Nat → Str → List (Str × Str × Str)
  | 0, _ => []
  | fuel + 1, s =>
    match idxOf? '{' s with
    | none => []
    | some p =>
      if p = 0 then ruleScanGo fuel (s.drop 1)
      else
        let rest := s.drop (p + 1)
        match idxOf? '}' rest with
        | none => []
        | some q =>
          if q = 0 then ruleScanGo fuel (s.drop (p + 1))
          else (s.take (p + 1 + q + 1), s.take p, rest.take q) ::
            ruleScanGo fuel (rest.drop (q + 1))

def ruleScan (css : Str) : List (Str × Str × Str) :=
  ruleScanGo (css.length + 1) css

/-- Brace body `[^{}]*(?:\{[^}]*\}[^{}]*)*\}` (one nesting level
tolerated): repeatedly skip non-brace characters; a `{` must be answered
by the next `}`; a top-level `}` ends the body.  Returns the number of
characters consumed including the final `}`. -/
def braceBody : Nat → Str → Option Nat
  | 0, _ => none
  | fuel + 1, s =>
    let run := (s.takeWhile (fun c => c ≠ '{' && c ≠ '}')).length
    match (s.drop run).head? with
    | some '}' => some (run + 1)
    | some _ =>
      let inner := s.drop (run + 1)
      match idxOf? '}' inner with
      | none => none
      | some b => (braceBody fuel (inner.drop (b + 1))).map
          (fun m => run + 1 + b + 1 + m)
    | none => none

/-- Attempt of `/@media\s*\([^)]+\)\s*\{…\}/` given the text after the
literal `@media`.  Returns the consumed length. -/
def tryMedia (t : Str) : Option Nat :=
  let w := (t.takeWhile isWsChar).length
  if (t.drop w).head? = some '(' then
    let afterParen := t.drop (w + 1)
    match idxOf? ')' afterParen with
    | none => none
    | some r =>
      if r = 0 then none
      else
        let afterClose := afterParen.drop (r + 1)
        let w2 := (afterClose.takeWhile isWsChar).length
        if (afterClose.drop w2).head? = some '{' then
          (braceBody (afterClose.length + 1) (afterClose.drop (w2 + 1))).map
            (fun b => w + 1 + r + 1 + w2 + 1 + b)
        else none
  else none

/-- Global scan of the media-query pattern; collects full match texts. -/
def mediaScanGo : Nat → Str → List Str
  | 0, _ => []
  | _ + 1, [] => []
  | fuel + 1, s@(_ :: rest) =>
    if strStarts s (str "@media") then
      match tryMedia (s.drop 6) with
      | some k => s.take (6 + k) :: mediaScanGo fuel (s.drop (6 + k))
      | none => mediaScanGo fuel rest
    else mediaScanGo fuel rest

def mediaScan (css : Str) : List Str := mediaScanGo (css.length + 1) css

/-- Attempt of `/@keyframes\s+([^{]+)\s*\{…\}/` given the text after the
literal `@keyframes`: the name group runs to the first `{`; `\s+` must
consume at least one leading whitespace character, and greedily takes the
maximal whitespace run while leaving at least one character for the
group.  Returns `(raw capture, consumed length)`. -/
def tryKeyframes (t : Str) : Option (Str × Nat) :=
  match idxOf? '{' t with
  | none => none
  | some q =>
    if q < 2 then none
    else
      let content := t.take q
      if isWsChar (content.headD 'x') = false then none
      else
        let wsEnd := (content.takeWhile isWsChar).length
        let capStart := max 1 (min wsEnd (q - 1))
        let cap := content.drop capStart
        (braceBody (t.length + 1) (t.drop (q + 1))).map
          (fun b => (cap, q + 1 + b))

/-- Global scan of the keyframes pattern; `(full match, raw name)`. -/
def keyframesScanGo : Nat → Str → List (Str × Str)
  | 0, _ => []
  | _ + 1, [] => []
  | fuel + 1, s@(_ :: rest) =>
    if strStarts s (str "@keyframes") then
      match tryKeyframes (s.drop 10) with
      | some (cap, k) => (s.take (10 + k), cap) :: keyframesScanGo fuel (s.drop (10 + k))
      | none => keyframesScanGo fuel rest
    else keyframesScanGo fuel rest

def keyframesScan (css : Str) : List (Str × Str) :=
  keyframesScanGo (css.length + 1) css

/-- Global scan of the custom-property pattern: two literal dashes, then
`([\w-]+)`, then `:`, then `\s*([^;]+);` (global flag).  After the literal
dashes the name group takes its maximal `[\w-]` run, which must be followed
immediately by `:`; the value group then runs to the first `;`, the
leading `\s*` taking the maximal whitespace run while leaving at least
one character.  Returns `(name capture, value capture)` pairs. -/
def propScanGo : Nat → Str → List (Str × Str)
  | 0, _ => []
  | _ + 1, [] => []
  | fuel + 1, '-' :: '-' :: t =>
    (let run := t.takeWhile isWordDash
     if run.isEmpty then propScanGo fuel ('-' :: t)
     else
       match t.drop run.length with
       | ':' :: v =>
         (match idxOf? ';' v with
          | none => propScanGo fuel ('-' :: t)
          | some sIdx =>
            if sIdx = 0 then propScanGo fuel ('-' :: t)
            else
              let capStart := min (v.takeWhile isWsChar).length (sIdx - 1)
              (run, (v.take sIdx).drop capStart) ::
                propScanGo fuel (v.drop (sIdx + 1)))
       | _ => propScanGo fuel ('-' :: t))
  | fuel + 1, _ :: rest => propScanGo fuel rest

def propScan (css : Str) : List (Str × Str) :=
  propScanGo (css.length + 1) css

/-- Global scan of `/[^{]+(?=\s*\{)/g`: the greedy run of non-`{`
characters before each `{` (the zero-width lookahead consumes nothing,
so scanning resumes at the `{` itself). -/
def selectorScanGo : Nat → Str → List Str
  | 0, _ => []
  | fuel + 1, s =>
    match idxOf? '{' s with
    | none => []
    | some p =>
      if p = 0 then selectorScanGo fuel (s.drop 1)
      else s.take p :: selectorScanGo fuel (s.drop p)

def selectorScan (css : Str) : List Str :=
  selectorScanGo (css.length + 1) css

/-- Global scan of `/\.([a-zA-Z][a-zA-Z0-9-_]*)/g`; returns the captures
(the class names without the leading dot). -/
def classScanGo : Nat → Str → List Str
  | 0, _ => []
  | _ + 1, [] => []
  | fuel + 1, d :: rest =>
    if d = '.' then
      match rest with
      | [] => []
      | c :: rs =>
        if c.isAlpha then
          (c :: rs.takeWhile isClassChar) :: classScanGo fuel (rs.dropWhile isClassChar)
        else classScanGo fuel (c :: rs)
    else classScanGo fuel rest

def classScan (css : Str) : List Str :=
  classScanGo (css.length + 1) css

/-- First match of `/\.([a-zA-Z0-9-_]+)/` (note: unlike `classScan`, a
digit may start the capture); used by `extractClassFromSelector`. -/
def classAnyFirst : Str → Option Str
  | [] => none
  | '.' :: rest =>
    (let run := rest.takeWhile isClassChar
     if run.isEmpty then classAnyFirst rest else some run)
  | _ :: rest => classAnyFirst rest

/-- One attempt of the color pattern
`/#[0-9a-fA-F]{3,6}|rgb\([^)]+\)|rgba\([^)]+\)|hsl\([^)]+\)|hsla\([^)]+\)/`
at the current position; alternatives are tried left to right. -/
def tryColor (s : Str) : Option (Str × Nat) :=
  match s with
  | '#' :: t =>
    let run := (t.takeWhile isHexCh).take 6
    if run.length ≥ 3 then some ('#' :: run, run.length + 1) else none
  | _ =>
    tryFn (str "rgb(") <|> tryFn (str "rgba(") <|>
      tryFn (str "hsl(") <|> tryFn (str "hsla(")
where
  tryFn (pre : Str) : Option (Str × Nat) :=
    if strStarts s pre then
      let t := s.drop pre.length
      match idxOf? ')' t with
      | none => none
      | some r =>
        if r = 0 then none
        else some (pre ++ t.take (r + 1), pre.length + r + 1)
    else none

/-- Global scan of the color pattern over one line. -/
def colorScanGo : Nat → Str → List Str
  | 0, _ => []
  | _ + 1, [] => []
  | fuel + 1, s@(_ :: rest) =>
    match tryColor s with
    | some (m, k) => m :: colorScanGo fuel (s.drop k)
    | none => colorScanGo fuel rest

def colorScan (line : Str) : List Str :=
  colorScanGo (line.length + 1) line

/-!
## Data model (`figma-css-parser.ts`)

The loose `any`-shaped objects of the source become explicit records.
`RawRule` is the shape built by `parseCssRules` / `parseFigmaCssBlocks`
(fields `selector`, `declarations`, `originalRule`, optional
`figmaComponent`); `CssRuleOut` is the mapped shape returned inside
`ParsedCSS` (fields `selector`, `properties`, `pseudoClasses`).
-/

/-- One `{property, value}` declaration object.  `value` is `none` when
the JavaScript value is `undefined` (destructuring a 1-element
`split(':')` result). -/
structure Decl where
  property : Str
  value : Option Str
deriving DecidableEq, Repr

structure RawRule where
  selector : Str
  declarations : List Decl
  originalRule : Str
  figmaComponent : Option Str
deriving DecidableEq, Repr

structure AnimationRaw where
  name : Str
  definition : Str
deriving DecidableEq, Repr

structure CustomPropRaw where
  name : Str
  value : Str
deriving DecidableEq, Repr

structure ElementGuess where
  selector : Str
  depth : Nat
  elements : List Str
deriving DecidableEq, Repr

/-- `extractHtmlStructure` result: `{ elements: [], hierarchy: [...] }`. -/
structure HtmlStructure where
  elements : List Str
  hierarchy : List ElementGuess
deriving DecidableEq, Repr

structure TailwindOut where
  main : Str
  customStyles : List Str
deriving DecidableEq, Repr

/-- `'flexbox' | 'grid' | 'absolute' | 'static'` (the last renamed to
`staticPos` for Lean). -/
inductive LayoutType where
  | flexbox | grid | absolute | staticPos
deriving DecidableEq, Repr

structure CssRuleOut where
  selector : Str
  properties : List (Str × Option Str)
  pseudoClasses : List Str
deriving DecidableEq, Repr

structure ResponsiveOut where
  breakpoint : Str
  rules : List CssRuleOut
deriving DecidableEq, Repr

/-- Output `AnimationRule` (the `keyframes` record is always `{}` in the
source mapping and is omitted). -/
structure AnimationOut where
  name : Str
  duration : Str
  timingFunction : Str
deriving DecidableEq, Repr

structure CustomPropOut where
  name : Str
  value : Str
  usage : List Str
deriving DecidableEq, Repr

structure ParsedCSS where
  componentName : Str
  cssRules : List CssRuleOut
  responsiveRules : List ResponsiveOut
  animations : List AnimationOut
  customProperties : List CustomPropOut
  layoutType : LayoutType
  designTokens : List (Str × Option Str)
  originalStructure : HtmlStructure
  htmlStructure : Str
  optimizedCss : Str
  tailwindClasses : TailwindOut
deriving DecidableEq, Repr

structure GeneratedComponent where
  jsx : Str
  css : Str
  html : Str
  tailwindClasses : Str
deriving DecidableEq, Repr

/-!
## Component namer (`extractComponentNameFromCss`, lines 245–292)
-/

/-- Strip one leading non-letter: `replace(/^[^a-zA-Z]/, '')`. -/
def dropLeadNonLetter : Str → Str
  | [] => []
  | c :: r => if c.isAlpha then c :: r else r

/-- Upper-case a leading word character: `replace(/^\w/, c => c.toUpperCase())`. -/
def capFirstWord : Str → Str
  | [] => []
  | c :: r => if isWordChar c then asciiUpper c :: r else c :: r

/-- The three-step sanitizer of the component namer:
`replace(/[^a-zA-Z0-9]/g, '').replace(/^[^a-zA-Z]/, '').replace(/^\w/, toUpper)`. -/
def sanitizeName (name : Str) : Str :=
  capFirstWord (dropLeadNonLetter (name.filter Char.isAlphanum))

/-- The disjunction of the first-comment rejection conditions (line
252–256); the source keeps the comment only when this is false. -/
def figmaNoise1 (n : Str) : Bool :=
  hasSubstr n (str "Auto layout") || hasSubstr n (str "Inside auto layout") ||
    hasSubstr n (str "input-light") || hasSubstr n (str "depth-light") ||
    n == str "button"

/-- `comment.replace(/\/\*\s*|\s*\*\//g, '').trim()` applied to a full
comment match `/*c*/`: the first alternative strips the opener and the
maximal whitespace prefix of `c`, the second strips the maximal
whitespace suffix of `c` together with the closer (the content contains
no `*`, so no other positions match); followed by `.trim()` the result
is exactly `trim c`. -/
def commentInner (full : Str) : Str :=
  trim ((full.drop 2).take (full.length - 4))

/-- The second lookup loop over `allComments` (lines 265–280). -/
def nameFromComments : List (Str × Str) → Option Str
  | [] => none
  | (full, _) :: rest =>
    let name := commentInner full
    if !name.isEmpty && !hasSubstr name (str "Auto layout") &&
        !hasSubstr name (str "Inside") && !hasSubstr name (str "identical") &&
        name.length < 50 then
      some (jsOr (sanitizeName name) (str "FigmaComponent"))
    else nameFromComments rest

/-- `word.charAt(0).toUpperCase() + word.slice(1)`. -/
def capitalizeWord : Str → Str
  | [] => []
  | c :: r => asciiUpper c :: r

/-- The class-name fallback: `firstClass.split('-').map(capitalize).join('')`. -/
def classNameJoin (firstClass : Str) : Str :=
  ((splitOnChar '-' firstClass).map capitalizeWord).flatten

/-- Steps 2–4 of the namer, reached when the first comment is absent or
rejected: scan all comments, then fall back to the first class selector,
then to the literal `"FigmaButton"`. -/
def nameTail (css : Str) : Str :=
  match nameFromComments (commentScan css) with
  | some n => n
  | none =>
    match (classScan css).head? with
    | some firstClass => classNameJoin firstClass
    | none => str "FigmaButton"

/-- `extractComponentNameFromCss` (lines 245–292). -/
def extractComponentNameFromCss (css : Str) : Str :=
  match (commentScan css).head? with
  | some (_, cap) =>
    let componentName := trim cap
    if figmaNoise1 componentName then nameTail css
    else jsOr (sanitizeName componentName) (str "FigmaComponent")
  | none => nameTail css

/-!
## Declaration parsing (lines 367–423)
-/

/-- `parseDeclarations` (lines 416–423): split on `;`, keep segments with
non-empty trims, split each on **every** `:` and destructure the first
two pieces, so `value` is the piece between the first and second colon
(`none` = `undefined` when there is no colon at all). -/
def parseDeclarations (declarations : Str) : List Decl :=
  ((splitOnChar ';' declarations).filter (fun d => !(trim d).isEmpty)).map
    (fun d =>
      let parts := (splitOnChar ':' d).map trim
      { property := parts.headD [], value := parts[1]? })

/-- `currentValue.replace(/;$/, '')`. -/
def stripTrailingSemi (v : Str) : Str :=
  if strEnds v (str ";") then v.take (v.length - 1) else v

/-- One line of the comment-block declaration scanner
(`extractDeclarationsFromBlock`, lines 375–400); state is
`(currentProperty, currentValue, emitted declarations)`. -/
def edbStep (st : Str × Str × List Decl) (line : Str) : Str × Str × List Decl :=
  let (p, v, ds) := st
  let t := trim line
  if strStarts t (str "/*") || strEnds t (str "*/") || t.isEmpty then (p, v, ds)
  else if t.contains ':' && !strStarts t (str "/*") then
    let ds2 := if !p.isEmpty && !v.isEmpty then
        ds ++ [⟨trim p, some (trim (stripTrailingSemi v))⟩] else ds
    let ci := (idxOf? ':' t).getD 0
    (trim (t.take ci), trim (t.drop (ci + 1)), ds2)
  else if !v.isEmpty && !t.isEmpty then (p, v ++ ' ' :: t, ds)
  else (p, v, ds)

/-- `extractDeclarationsFromBlock` (lines 367–411). -/
def extractDeclarationsFromBlock (cssBlock : Str) : List Decl :=
  let st := (splitOnChar '\n' cssBlock).foldl edbStep ([], [], [])
  if !st.1.isEmpty && !st.2.1.isEmpty then
    st.2.2 ++ [⟨trim st.1, some (trim (stripTrailingSemi st.2.1))⟩]
  else st.2.2

/-!
## Rule building (lines 297–362)
-/

/-- `replace(/^-+|-+$/g, '')`. -/
def trimDashes (s : Str) : Str :=
  ((s.dropWhile (· = '-')).reverse.dropWhile (· = '-')).reverse

def asciiLowerStr (s : Str) : Str := s.map asciiLower

/-- `parts[i] / parts[i+1]` pairing of the split result for
`i = 1, 3, 5, …` (a missing `parts[i+1]` reads as `''`). -/
def pairUp : List Str → List (Str × Str)
  | [] => []
  | [c] => [(c, [])]
  | c :: p :: rest => (c, p) :: pairUp rest

/-- Block construction from one `(label, following text)` pair
(`parseFigmaCssBlocks` body, lines 337–359). -/
def blockOf (pr : Str × Str) : Option RawRule :=
  let componentName := trim pr.1
  let cssContent := trim pr.2
  if !cssContent.isEmpty && !componentName.isEmpty &&
      !hasSubstr componentName (str "Auto layout") &&
      !hasSubstr componentName (str "Inside auto layout") then
    let declarations := extractDeclarationsFromBlock cssContent
    if declarations.length > 0 then
      let className := asciiLowerStr (trimDashes
        (componentName.map (fun c => if c.isAlphanum then c else '-')))
      some { selector := '.' :: className, declarations,
             originalRule := str "/* " ++ componentName ++ str " */ \x7b " ++
               cssContent ++ str " \x7d",
             figmaComponent := some componentName }
    else none
  else none

/-- `parseFigmaCssBlocks` (lines 330–362). -/
def parseFigmaCssBlocks (css : Str) : List RawRule :=
  (pairUp ((commentSplitParts css).drop 1)).filterMap blockOf

/-- The regex-rule loop body of `parseCssRules` (lines 307–319): a match
becomes a rule only when its trimmed selector does not start with `/*`
and mentions `.`, `#` or `::`. -/
def selectorRuleOf (m : Str × Str × Str) : Option RawRule :=
  let selector := trim m.2.1
  let declarations := trim m.2.2
  if !strStarts selector (str "/*") &&
      (selector.contains '.' || selector.contains '#' ||
        hasSubstr selector (str "::")) then
    some { selector, declarations := parseDeclarations declarations,
           originalRule := m.1, figmaComponent := none }
  else none

/-- `parseCssRules` (lines 297–325): the regex-scanned selector rules are
pushed during the loop and the comment-derived blocks are appended
*after* them (`rules.push(...figmaBlocks)` at line 322; the blocks are
merely *computed* first, at line 301). -/
def parseCssRules (css : Str) : List RawRule :=
  ((ruleScan css).filterMap selectorRuleOf) ++ parseFigmaCssBlocks css

/-!
## Classifier/extractor scans (lines 428–474)
-/

def extractResponsiveRules (css : Str) : List Str := mediaScan css

def extractAnimations (css : Str) : List AnimationRaw :=
  (keyframesScan css).map (fun m => { name := trim m.2, definition := m.1 })

def extractCustomProperties (css : Str) : List CustomPropRaw :=
  (propScan css).map (fun m => { name := m.1, value := trim m.2 })

/-!
## HTML structure inference (lines 479–557)
-/

/-- One hierarchy entry (line 497–504). -/
def guessOf (selector : Str) : ElementGuess :=
  let parts := jsSplitWs selector
  { selector := trim selector, depth := parts.length, elements := parts.map trim }

/-- Stable insertion (after existing entries of equal depth), so the
fold below realizes the stable ascending sort of
`hierarchy.sort((a, b) => a.depth - b.depth)`. -/
def insDepth (x : ElementGuess) : List ElementGuess → List ElementGuess
  | [] => [x]
  | y :: ys => if y.depth ≤ x.depth then y :: insDepth x ys else x :: y :: ys

def sortByDepth (l : List ElementGuess) : List ElementGuess :=
  l.foldl (fun acc x => insDepth x acc) []

def buildElementHierarchy (selectors : List Str) : List ElementGuess :=
  sortByDepth (selectors.map guessOf)

def extractHtmlStructure (css : Str) : HtmlStructure :=
  { elements := [], hierarchy := buildElementHierarchy (selectorScan css) }

/-- `inferElementType` (lines 530–549). -/
def inferElementType (selector : Str) : Str :=
  if hasSubstr selector (str "button") || hasSubstr selector (str "btn") then str "button"
  else if hasSubstr selector (str "header") then str "header"
  else if hasSubstr selector (str "footer") then str "footer"
  else if hasSubstr selector (str "nav") then str "nav"
  else if hasSubstr selector (str "main") then str "main"
  else if hasSubstr selector (str "section") then str "section"
  else if hasSubstr selector (str "article") then str "article"
  else if hasSubstr selector (str "aside") then str "aside"
  else if hasSubstr selector (str "h1") || hasSubstr selector (str "title") then str "h1"
  else if hasSubstr selector (str "h2") then str "h2"
  else if hasSubstr selector (str "h3") then str "h3"
  else if hasSubstr selector (str "p") || hasSubstr selector (str "text") then str "p"
  else if hasSubstr selector (str "span") then str "span"
  else if hasSubstr selector (str "img") || hasSubstr selector (str "image") then str "img"
  else if hasSubstr selector (str "a") || hasSubstr selector (str "link") then str "a"
  else if hasSubstr selector (str "ul") || hasSubstr selector (str "list") then str "ul"
  else if hasSubstr selector (str "li") || hasSubstr selector (str "item") then str "li"
  else str "div"

def extractClassFromSelector (selector : Str) : Str :=
  match classAnyFirst selector with
  | some cls => cls
  | none => str "figma-element"

/-- `generateHtmlFromStructure` (lines 512–525). -/
def generateHtmlFromStructure (st : HtmlStructure) : Str :=
  if st.hierarchy.isEmpty then
    str "<div class=\"figma-content\">Figma komponens tartalma</div>"
  else
    joinWith (str "\n        ") (st.hierarchy.map (fun item =>
      let elementType := inferElementType item.selector
      let className := extractClassFromSelector item.selector
      str "<" ++ elementType ++ str " class=\"" ++ className ++
        str "\">\n      <!-- " ++ item.selector ++ str " -->\n    </" ++
        elementType ++ str ">"))

/-!
## Tailwind translator (`convertCssToTailwind`, lines 562–669)
-/

/-- The static lookup object `tailwindMap` (note the deliberate empty
string for `box-sizing: border-box`, which is falsy and therefore always
falls through to the `switch`, producing nothing). -/
def tailwindMapList : List (Str × Str) := [
  (str "display: flex", str "flex"),
  (str "display: block", str "block"),
  (str "display: inline", str "inline"),
  (str "display: inline-block", str "inline-block"),
  (str "display: grid", str "grid"),
  (str "flex-direction: column", str "flex-col"),
  (str "flex-direction: row", str "flex-row"),
  (str "justify-content: center", str "justify-center"),
  (str "justify-content: space-between", str "justify-between"),
  (str "justify-content: flex-start", str "justify-start"),
  (str "justify-content: flex-end", str "justify-end"),
  (str "align-items: center", str "items-center"),
  (str "align-items: flex-start", str "items-start"),
  (str "align-items: flex-end", str "items-end"),
  (str "text-align: center", str "text-center"),
  (str "text-align: left", str "text-left"),
  (str "text-align: right", str "text-right"),
  (str "font-weight: bold", str "font-bold"),
  (str "font-weight: 600", str "font-semibold"),
  (str "font-weight: 500", str "font-medium"),
  (str "font-weight: 400", str "font-normal"),
  (str "font-weight: 300", str "font-light"),
  (str "position: relative", str "relative"),
  (str "position: absolute", str "absolute"),
  (str "position: fixed", str "fixed"),
  (str "position: sticky", str "sticky"),
  (str "overflow: hidden", str "overflow-hidden"),
  (str "overflow: auto", str "overflow-auto"),
  (str "border-radius: 50%", str "rounded-full"),
  (str "cursor: pointer", str "cursor-pointer"),
  (str "box-sizing: border-box", str ""),
  (str "isolation: isolate", str "isolate")]

/-- Template interpolation of a possibly-`undefined` value:
`` `${v}` `` renders `undefined` as the string `"undefined"`. -/
def jsStrOfOpt : Option Str → Str
  | some s => s
  | none => str "undefined"

/-- `v.includes(x)` where `v` may be `undefined`: a `TypeError` when it
is (`Except.error ()`). -/
def optIncludesE : Option Str → Str → Except Unit Bool
  | some s, x => .ok (hasSubstr s x)
  | none, _ => .error ()

/-- `v.startsWith(x)` where `v` may be `undefined`. -/
def optStartsWithE : Option Str → Str → Except Unit Bool
  | some s, x => .ok (strStarts s x)
  | none, _ => .error ()

/-- `v.split(' ')` where `v` may be `undefined`. -/
def optSplitSpaceE : Option Str → Except Unit (List Str)
  | some s => .ok (splitOnChar ' ' s)
  | none => .error ()

/-- The property-specific `switch` of the translator (lines 610–659),
reached when the exact-match lookup is falsy. -/
def tailwindSwitch (acc : Str × List Str) (decl : Decl) : Except Unit (Str × List Str) := do
  let (mainClasses, customStyles) := acc
  if decl.property = str "border-radius" then
    let b100 ← optIncludesE decl.value (str "100px")
    if b100 then .ok (mainClasses ++ str "rounded-full ", customStyles)
    else
      let b90 ← optIncludesE decl.value (str "90px")
      if b90 then .ok (mainClasses ++ str "rounded-full ", customStyles)
      else .ok (mainClasses ++ str "rounded-lg ", customStyles)
  else if decl.property = str "padding" then
    let paddingValues ← optSplitSpaceE decl.value
    if paddingValues.length = 1 then .ok (mainClasses ++ str "p-4 ", customStyles)
    else if paddingValues.length = 2 then .ok (mainClasses ++ str "py-3 px-6 ", customStyles)
    else .ok acc
  else if decl.property = str "gap" then
    if decl.value = some (str "10px") then .ok (mainClasses ++ str "gap-2.5 ", customStyles)
    else if decl.value = some (str "8px") then .ok (mainClasses ++ str "gap-2 ", customStyles)
    else .ok acc
  else if decl.property = str "width" || decl.property = str "height" then
    .ok (mainClasses, customStyles ++ [decl.property ++ str ": " ++ jsStrOfOpt decl.value])
  else if decl.property = str "background" then
    let hex ← optStartsWithE decl.value (str "#")
    if hex then .ok (mainClasses, customStyles ++ [str "background-color: " ++ jsStrOfOpt decl.value])
    else .ok (mainClasses, customStyles ++ [str "background: " ++ jsStrOfOpt decl.value])
  else if decl.property = str "box-shadow" then
    .ok (mainClasses, customStyles ++ [str "box-shadow: " ++ jsStrOfOpt decl.value])
  else if decl.property = str "backdrop-filter" then
    .ok (mainClasses, customStyles ++ [str "backdrop-filter: " ++ jsStrOfOpt decl.value])
  else .ok acc

/-- One declaration of the translator loop (lines 603–661):
`if (tailwindMap[cssDecl]) { mainClasses += … } else { switch … }`. -/
def convStep (acc : Str × List Str) (decl : Decl) : Except Unit (Str × List Str) :=
  let cssDecl := decl.property ++ str ": " ++ jsStrOfOpt decl.value
  match assocGet tailwindMapList cssDecl with
  | some tw =>
    if !tw.isEmpty then .ok (acc.1 ++ tw ++ str " ", acc.2)
    else tailwindSwitch acc decl
  | none => tailwindSwitch acc decl

/-- `convertCssToTailwind` (lines 562–669). -/
def convertCssToTailwind (cssRules : List RawRule) : Except Unit TailwindOut := do
  let res ← cssRules.foldlM (fun acc rule => rule.declarations.foldlM convStep acc)
    (([] : Str), ([] : List Str))
  .ok { main := trim res.1, customStyles := res.2 }

/-!
## CSS emitter, layout detection, design tokens (lines 674–804)
-/

/-- `generateOptimizedCss` (lines 674–710); note that
`rule.declarations` is an array and hence always truthy, so the guard
reduces to the selector being non-empty. -/
def generateOptimizedCss (componentName : Str) (cssRules : List RawRule)
    (responsiveRules : List Str) (animations : List AnimationRaw)
    (customProperties : List CustomPropRaw) : Str :=
  let base := str "/* " ++ componentName ++ str " Component */\n\n"
  let withProps :=
    if customProperties.length > 0 then
      base ++ str ":root \x7b\n" ++
        (customProperties.map (fun p =>
          str "  --" ++ p.name ++ str ": " ++ p.value ++ str ";\n")).flatten ++
        str "\x7d\n\n"
    else base
  let withRules := withProps ++ (cssRules.map (fun rule =>
    if !rule.selector.isEmpty then
      rule.selector ++ str " \x7b\n" ++
        (rule.declarations.map (fun d =>
          str "  " ++ d.property ++ str ": " ++ jsStrOfOpt d.value ++ str ";\n")).flatten ++
        str "\x7d\n\n"
    else [])).flatten
  let withResp := withRules ++ (responsiveRules.map (fun r => r ++ str "\n\n")).flatten
  withResp ++ (animations.map (fun a => a.definition ++ str "\n\n")).flatten

/-- The inner early-return scan of `detectLayoutTypeFromRules`. -/
def detectDecls : List Decl → Option LayoutType
  | [] => none
  | d :: rest =>
    if d.property = str "display" && d.value = some (str "flex") then some .flexbox
    else if d.property = str "display" && d.value = some (str "grid") then some .grid
    else if d.property = str "position" && d.value = some (str "absolute") then some .absolute
    else detectDecls rest

/-- `detectLayoutTypeFromRules` (lines 751–766). -/
def detectLayoutTypeFromRules : List RawRule → LayoutType
  | [] => .staticPos
  | r :: rest =>
    match detectDecls r.declarations with
    | some t => t
    | none => detectLayoutTypeFromRules rest

/-- One declaration of `generateDesignTokensFromRules` (lines 774–800);
`index` is the rule index.  Reading `decl.value.startsWith` throws when
the value is `undefined`. -/
def tokenStep (index : Nat) (tokens : List (Str × Option Str)) (d : Decl) :
    Except Unit (List (Str × Option Str)) := do
  if d.property = str "color" then
    let hex ← optStartsWithE d.value (str "#")
    if hex then .ok (jsRecordSet tokens (str "color-" ++ natStr index) d.value)
    else .ok tokens
  else if d.property = str "background" || d.property = str "background-color" then
    let hex ← optStartsWithE d.value (str "#")
    if hex then .ok (jsRecordSet tokens (str "bg-" ++ natStr index) d.value)
    else .ok tokens
  else if d.property = str "border-radius" then
    .ok (jsRecordSet tokens (str "radius-" ++ natStr index) d.value)
  else if d.property = str "font-size" then
    .ok (jsRecordSet tokens (str "text-" ++ natStr index) d.value)
  else if d.property = str "font-weight" then
    .ok (jsRecordSet tokens (str "weight-" ++ natStr index) d.value)
  else .ok tokens

/-- `generateDesignTokensFromRules` (lines 771–804). -/
def generateDesignTokensFromRules (cssRules : List RawRule) :
    Except Unit (List (Str × Option Str)) :=
  cssRules.enum.foldlM (fun tokens iRule =>
    iRule.2.declarations.foldlM (tokenStep iRule.1) tokens) []

/-!
## `parseFigmaCss` (lines 61–123)
-/

/-- The per-rule mapping at lines 93–100: `properties` is built by a
`reduce` into a fresh object, so a property repeated inside one rule is
collapsed to its last value (the object keeps the first-insertion
position). -/
def ruleToOut (rule : RawRule) : CssRuleOut :=
  { selector := rule.selector,
    properties := rule.declarations.foldl (fun acc d => jsRecordSet acc d.property d.value) [],
    pseudoClasses := [] }

/-- `parseFigmaCss` (lines 61–123).  The `Except` threads the only
`TypeError`s the function can raise (undefined declaration values hitting
`convertCssToTailwind` at line 85 or `generateDesignTokensFromRules` at
line 89). -/
def parseFigmaCss (cssCode : Str) : Except Unit ParsedCSS := do
  let componentName := jsOr (extractComponentNameFromCss cssCode) (str "FigmaComponent")
  let cssRules := parseCssRules cssCode
  let responsiveRules := extractResponsiveRules cssCode
  let animations := extractAnimations cssCode
  let customProperties := extractCustomProperties cssCode
  let originalStructure := extractHtmlStructure cssCode
  let htmlStructure := generateHtmlFromStructure originalStructure
  let optimizedCss := generateOptimizedCss componentName cssRules responsiveRules
    animations customProperties
  let tailwindClasses ← convertCssToTailwind cssRules
  let layoutType := detectLayoutTypeFromRules cssRules
  let designTokens ← generateDesignTokensFromRules cssRules
  .ok {
    componentName,
    cssRules := cssRules.map ruleToOut,
    responsiveRules := responsiveRules.map (fun r => { breakpoint := r, rules := [] }),
    animations := animations.map (fun a =>
      { name := a.name, duration := str "0.3s", timingFunction := str "ease" }),
    customProperties := customProperties.map (fun p =>
      { name := p.name, value := p.value, usage := [] }),
    layoutType, designTokens, originalStructure, htmlStructure, optimizedCss,
    tailwindClasses }

/-!
## JSX / document emitters (lines 172–240 and 712–746)
-/

/-- In `generateReactComponentFromCss` the JSX-structure guesser receives
`parsedCss.cssRules`, whose objects (built at lines 93–100) carry no
`figmaComponent` field, so `rule.figmaComponent` always reads as
`undefined`; this accessor makes that explicit. -/
def cssRuleOutFigmaComponent (_ : CssRuleOut) : Option Str := none

/-- `v && v.includes(x)`: `false` when `v` is `undefined` (the guard
short-circuits, so no `TypeError`). -/
def optSubstrB : Option Str → Str → Bool
  | some s, x => hasSubstr s x
  | none, _ => false

/-- `generateJsxFromFigmaStructure` (lines 712–746). -/
def generateJsxFromFigmaStructure (cssRules : List CssRuleOut) : Str :=
  let hasButton := cssRules.any (fun r =>
    optSubstrB (cssRuleOutFigmaComponent r) (str "button") ||
      optSubstrB (cssRuleOutFigmaComponent r) (str "Button"))
  let hasText := cssRules.any (fun r =>
    optSubstrB (cssRuleOutFigmaComponent r) (str "Brief") ||
      optSubstrB (cssRuleOutFigmaComponent r) (str "text"))
  let hasIcon := cssRules.any (fun r =>
    optSubstrB (cssRuleOutFigmaComponent r) (str "check") ||
      optSubstrB (cssRuleOutFigmaComponent r) (str "Icon"))
  let hasFrame := cssRules.any (fun r =>
    optSubstrB (cssRuleOutFigmaComponent r) (str "Frame"))
  if hasButton || hasFrame then
    str "<div className=\"frame-content\">\n        " ++
      (if hasText then str "<span className=\"button-text\">\x7btext\x7d</span>" else []) ++
      str "\n        " ++
      (if hasIcon then
        str "<div className=\"check-icon\">\n          <svg width=\"16\" height=\"16\" viewBox=\"0 0 16 16\" fill=\"none\">\n            <rect width=\"16\" height=\"16\" rx=\"2\" fill=\"#00A656\"/>\n            <path d=\"M6.5 9.5L4.5 7.5L3.5 8.5L6.5 11.5L12.5 5.5L11.5 4.5L6.5 9.5Z\" fill=\"white\"/>\n          </svg>\n        </div>"
       else []) ++
      str "\n      </div>"
  else str "<div className=\"figma-content\">\n      \x7bchildren\x7d\n    </div>"

/-- `generateReactComponentFromCss` (lines 172–240). -/
def generateReactComponentFromCss (parsedCss : ParsedCSS) : GeneratedComponent :=
  let componentName := parsedCss.componentName
  let jsxStructure := generateJsxFromFigmaStructure parsedCss.cssRules
  let tailwindClasses := parsedCss.tailwindClasses.main
  let jsx :=
    str "import React from \"react\";\n\ninterface " ++ componentName ++
    str "Props \x7b\n  className?: string;\n  children?: React.ReactNode;\n  text?: string;\n  variant?: \"default\" | \"primary\" | \"secondary\";\n  size?: \"sm\" | \"md\" | \"lg\";\n\x7d\n\nconst " ++
    componentName ++ str ": React.FC<" ++ componentName ++
    str "Props> = (\x7b \n  className,\n  children,\n  text = \"Brief generated\",\n  variant = \"default\",\n  size = \"md\",\n  ...props \n\x7d) => \x7b\n  return (\n    <div \n      className=\x7b`" ++
    tailwindClasses ++ str " $\x7bclassName || \"\"\x7d`\x7d \n      \x7b...props\x7d\n    >\n      " ++
    jsxStructure ++ str "\n      \x7bchildren\x7d\n    </div>\n  );\n\x7d;\n\nexport default " ++
    componentName ++ str ";"
  let css := parsedCss.optimizedCss
  let html :=
    str "<!DOCTYPE html>\n<html lang=\"hu\">\n<head>\n    <meta charset=\"UTF-8\">\n    <meta name=\"viewport\" content=\"width=device-width, initial-scale=1.0\">\n    <title>" ++
    componentName ++ str "</title>\n    <style>\n" ++ css ++
    str "\n    </style>\n</head>\n<body>\n    <div class=\"" ++
    asciiLowerStr componentName ++ str "\">\n        " ++ parsedCss.htmlStructure ++
    str "\n    </div>\n</body>\n</html>"
  { jsx, css, html, tailwindClasses }

/-- `generate ∘ parse`, the pipeline of the external interface. -/
def runPipeline (cssCode : Str) : Except Unit GeneratedComponent :=
  (parseFigmaCss cssCode).map generateReactComponentFromCss

/-!
## Memoized CSS parser (`performance.ts`, lines 33–105)
-/

/-- Result shape of the `optimizedCssParser` worker. -/
structure OptimizedParse where
  rules : List Str
  colors : List Str
  selectors : List Str
  lineCount : Nat
deriving DecidableEq, Repr

/-- One line of the worker loop (lines 68–95): state is
`(rules, colors, selectors, currentRule, inRule)`. -/
def rawCssStep (st : List Str × List Str × List Str × Str × Bool) (line : Str) :
    List Str × List Str × List Str × Str × Bool :=
  let (rules, colors, selectors, currentRule, inRule) := st
  let trimmed := trim line
  if trimmed.isEmpty || strStarts trimmed (str "/*") then st
  else if trimmed.contains '{' then
    let selector := trim ((splitOnChar '{' trimmed).headD [])
    let selectors2 := if !selector.isEmpty then jsSetAdd selectors selector else selectors
    (rules, colors, selectors2, trimmed, true)
  else if trimmed.contains '}' then
    if inRule then
      (rules ++ [currentRule ++ str " " ++ trimmed], colors, selectors, [], false)
    else st
  else if inRule then
    let colors2 := (colorScan trimmed).foldl jsSetAdd colors
    (rules, colors2, selectors, currentRule ++ str " " ++ trimmed, inRule)
  else st

/-- The unmemoized parsing function inside `optimizedCssParser`
(lines 57–103). -/
def rawCssParse (cssCode : Str) : OptimizedParse :=
  let lines := splitOnChar '\n' cssCode
  let st := lines.foldl rawCssStep ([], [], [], [], false)
  { rules := st.1, colors := st.2.1, selectors := st.2.2.1, lineCount := lines.length }

/-- The memo key `` `css_${cssCode.length}_${cssCode.slice(0, 100)}` ``
(line 104). -/
def memoKey (cssCode : Str) : Str :=
  str "css_" ++ natStr cssCode.length ++ str "_" ++ cssCode.take 100

/-- The module-level `memoCache` `Map`, modelled by explicit state
passing. -/
abbrev MemoCache := List (Str × OptimizedParse)

/-- `memoize(func, getKey)` applied to the parser (lines 35–48): return
the cached value on a key hit, otherwise compute and store. -/
def memoCssParser (cache : MemoCache) (cssCode : Str) : OptimizedParse × MemoCache :=
  match assocGet cache (memoKey cssCode) with
  | some v => (v, cache)
  | none =>
    let result := rawCssParse cssCode
    (result, cache ++ [(memoKey cssCode, result)])

/-- Two successive calls of the memoized parser starting from an empty
module cache; the result of the second call. -/
def memoRun2 (s1 s2 : Str) : OptimizedParse :=
  (memoCssParser (memoCssParser [] s1).2 s2).1

/-- `Except.isOk` style discriminator used by the witnesses. -/
def exceptOk : Except Unit α → Bool
  | .ok _ => true
  | .error _ => false

/-!
## Helper lemmas
-/

theorem splitOnChar_ne_nil (sep : Char) (s : Str) : splitOnChar sep s ≠ [] := by
  induction s with
  | nil => simp [splitOnChar]
  | cons c rest ih =>
    simp only [splitOnChar]
    split
    · simp
    · cases h : splitOnChar sep rest with
      | nil => simp
      | cons r rs => simp

theorem splitOnChar_no_sep (sep : Char) (s : Str) (h : ∀ x ∈ s, x ≠ sep) :
    splitOnChar sep s = [s] := by
  induction s with
  | nil => rfl
  | cons c rest ih =>
    have hc : c ≠ sep := h c (List.mem_cons_self c rest)
    have hr : splitOnChar sep rest = [rest] := ih (fun x hx => h x (List.mem_cons_of_mem c hx))
    simp [splitOnChar, hc, hr]

theorem splitOnChar_append (sep : Char) (a t : Str) (h : ∀ x ∈ a, x ≠ sep) :
    splitOnChar sep (a ++ sep :: t) = a :: splitOnChar sep t := by
  induction a with
  | nil => simp [splitOnChar]
  | cons c rest ih =>
    have hc : c ≠ sep := h c (List.mem_cons_self c rest)
    have hr := ih (fun x hx => h x (List.mem_cons_of_mem c hx))
    simp only [List.cons_append, splitOnChar, if_neg hc]
    rw [show rest.append (sep :: t) = rest ++ sep :: t from rfl, hr]

theorem splitOnChar_mem_of_mem (sep : Char) (s seg : Str) (c : Char)
    (hseg : seg ∈ splitOnChar sep s) (hc : c ∈ seg) : c ∈ s ∧ c ≠ sep := by
  induction s generalizing seg with
  | nil =>
    simp [splitOnChar] at hseg
    subst hseg
    simp at hc
  | cons d rest ih =>
    simp only [splitOnChar] at hseg
    by_cases hd : d = sep
    · rw [if_pos hd] at hseg
      rcases List.mem_cons.mp hseg with h | h
      · subst h; simp at hc
      · obtain ⟨h1, h2⟩ := ih seg h hc
        exact ⟨List.mem_cons_of_mem d h1, h2⟩
    · rw [if_neg hd] at hseg
      cases hsplit : splitOnChar sep rest with
      | nil => exact absurd hsplit (splitOnChar_ne_nil sep rest)
      | cons r rs =>
        rw [hsplit] at hseg
        rcases List.mem_cons.mp hseg with h | h
        · subst h
          rcases List.mem_cons.mp hc with h2 | h2
          · subst h2; exact ⟨List.mem_cons_self c rest, hd⟩
          · obtain ⟨m1, m2⟩ := ih r (by rw [hsplit]; exact List.mem_cons_self r rs) h2
            exact ⟨List.mem_cons_of_mem d m1, m2⟩
        · obtain ⟨m1, m2⟩ := ih seg (by rw [hsplit]; exact List.mem_cons_of_mem r h)
            (hc)
          exact ⟨List.mem_cons_of_mem d m1, m2⟩

theorem splitOnChar_cons_head (sep c : Char) (rs : Str) (hc : c ≠ sep) :
    ∃ r0 rest, splitOnChar sep (c :: rs) = (c :: r0) :: rest := by
  simp only [splitOnChar, if_neg hc]
  cases h : splitOnChar sep rs with
  | nil => exact absurd h (splitOnChar_ne_nil sep rs)
  | cons r0 rest => exact ⟨r0, rest, rfl⟩

theorem mem_dropWhile_of_mem (p : Char → Bool) (s : Str) (c : Char)
    (hc : c ∈ s) (hp : p c = false) : c ∈ s.dropWhile p := by
  induction s with
  | nil => simp at hc
  | cons d rest ih =>
    rcases List.mem_cons.mp hc with h | h
    · subst h
      simp [List.dropWhile, hp]
    · simp only [List.dropWhile]
      cases hd : p d
      · simp [List.mem_cons_of_mem d h]
      · exact ih h

theorem trim_ne_nil (s : Str) (c : Char) (hc : c ∈ s) (hw : isWsChar c = false) :
    trim s ≠ [] := by
  intro h0
  unfold trim at h0
  have h1 : (s.dropWhile isWsChar).reverse.dropWhile isWsChar = [] := by
    simpa using congrArg List.reverse h0
  have h2 : c ∈ (s.dropWhile isWsChar).reverse :=
    List.mem_reverse.mpr (mem_dropWhile_of_mem isWsChar s c hc hw)
  have h3 := List.dropWhile_eq_nil_iff.mp h1 c h2
  rw [hw] at h3
  exact Bool.false_ne_true h3

theorem jsOr_eq_of_ne_nil (s d : Str) (h : s ≠ []) : jsOr s d = s := by
  unfold jsOr
  cases s with
  | nil => exact absurd rfl h
  | cons a l => rfl

theorem asciiUpper_classOk (c : Char) (h : (c.isAlphanum || c = '_') = true) :
    ((asciiUpper c).isAlphanum || asciiUpper c = '_') = true := by
  unfold asciiUpper
  split <;> first | decide | exact h

theorem asciiUpper_alnum (c : Char) (h : c.isAlphanum = true) :
    (asciiUpper c).isAlphanum = true := by
  unfold asciiUpper
  split <;> first | decide | exact h

theorem dropLeadNonLetter_all (s : Str) (h : s.all Char.isAlphanum = true) :
    (dropLeadNonLetter s).all Char.isAlphanum = true := by
  cases s with
  | nil => rfl
  | cons c r =>
    simp only [List.all_cons, Bool.and_eq_true] at h
    simp only [dropLeadNonLetter]
    split
    · simp [h.1, h.2]
    · exact h.2

theorem capFirstWord_all (s : Str) (h : s.all Char.isAlphanum = true) :
    (capFirstWord s).all Char.isAlphanum = true := by
  cases s with
  | nil => rfl
  | cons c r =>
    simp only [List.all_cons, Bool.and_eq_true] at h
    simp only [capFirstWord]
    split
    · simp [asciiUpper_alnum c h.1, h.2]
    · simp [h.1, h.2]

theorem sanitizeName_all_alnum (s : Str) :
    (sanitizeName s).all Char.isAlphanum = true := by
  unfold sanitizeName
  apply capFirstWord_all
  apply dropLeadNonLetter_all
  rw [List.all_eq_true]
  intro c hc
  exact (List.mem_filter.mp hc).2

theorem all_alnum_weaken (s : Str) (h : s.all Char.isAlphanum = true) :
    s.all (fun c => c.isAlphanum || c = '_') = true := by
  rw [List.all_eq_true] at h ⊢
  intro c hc
  simp [h c hc]

theorem classScanGo_mem (fuel : Nat) : ∀ (s m : Str), m ∈ classScanGo fuel s →
    ∃ c rs, m = c :: rs ∧ c.isAlpha = true ∧ rs.all isClassChar = true := by
  induction fuel with
  | zero => intro s m hm; simp [classScanGo] at hm
  | succ n ih =>
    intro s m hm
    match s with
    | [] => simp [classScanGo] at hm
    | d :: rest =>
      simp only [classScanGo] at hm
      by_cases hd : d = '.'
      · rw [if_pos hd] at hm
        match rest with
        | [] => simp at hm
        | c :: rs =>
          have hm2 : m ∈ (if c.isAlpha = true then
              (c :: List.takeWhile isClassChar rs) ::
                classScanGo n (List.dropWhile isClassChar rs)
            else classScanGo n (c :: rs)) := hm
          by_cases hca : c.isAlpha = true
          · rw [if_pos hca] at hm2
            rcases List.mem_cons.mp hm2 with h | h
            · refine ⟨c, rs.takeWhile isClassChar, h, hca, ?_⟩
              rw [List.all_eq_true]
              intro x hx
              exact List.mem_takeWhile_imp hx
            · exact ih _ m h
          · rw [if_neg hca] at hm2
            exact ih _ m hm2
      · rw [if_neg hd] at hm
        exact ih _ m hm

theorem capitalizeWord_all (seg : Str)
    (h : seg.all (fun c => c.isAlphanum || c = '_') = true) :
    (capitalizeWord seg).all (fun c => c.isAlphanum || c = '_') = true := by
  cases seg with
  | nil => rfl
  | cons c r =>
    simp only [List.all_cons, Bool.and_eq_true] at h
    simp only [capitalizeWord, List.all_cons, Bool.and_eq_true]
    exact ⟨asciiUpper_classOk c h.1, h.2⟩

theorem classNameJoin_good (c : Char) (rs : Str) (hca : c.isAlpha = true)
    (hall : rs.all isClassChar = true) :
    classNameJoin (c :: rs) ≠ [] ∧
      (classNameJoin (c :: rs)).all (fun x => x.isAlphanum || x = '_') = true := by
  have hc : c ≠ '-' := by
    intro h
    rw [h] at hca
    exact absurd hca (by decide)
  have hseg : ∀ seg ∈ splitOnChar '-' (c :: rs),
      seg.all (fun x => x.isAlphanum || x = '_') = true := by
    intro seg hsg
    rw [List.all_eq_true]
    intro x hx
    obtain ⟨hx1, hx2⟩ := splitOnChar_mem_of_mem '-' (c :: rs) seg x hsg hx
    rcases List.mem_cons.mp hx1 with h | h
    · subst h
      simp [Char.isAlphanum, hca]
    · have := List.all_eq_true.mp hall x h
      unfold isClassChar at this
      rcases Bool.or_eq_true _ _ |>.mp this with h2 | h2
      · rcases Bool.or_eq_true _ _ |>.mp h2 with h3 | h3
        · simp [h3]
        · exact absurd (by simpa using h3) hx2
      · simp [h2]
  unfold classNameJoin
  obtain ⟨r0, rest, hsplit⟩ := splitOnChar_cons_head '-' c rs hc
  constructor
  · rw [hsplit]
    simp [capitalizeWord]
  · rw [List.all_eq_true]
    intro x hx
    obtain ⟨t, ht, hxt⟩ := List.mem_flatten.mp hx
    obtain ⟨seg, hsg, rfl⟩ := List.mem_map.mp ht
    exact List.all_eq_true.mp (capitalizeWord_all seg (hseg seg hsg)) x hxt

theorem nameFromComments_good (l : List (Str × Str)) (n : Str)
    (h : nameFromComments l = some n) :
    n ≠ [] ∧ n.all (fun c => c.isAlphanum || c = '_') = true := by
  induction l with
  | nil => simp [nameFromComments] at h
  | cons p rest ih =>
    obtain ⟨full, cap⟩ := p
    simp only [nameFromComments] at h
    split at h
    · rw [Option.some_inj] at h
      subst h
      by_cases hs : sanitizeName (commentInner full) = []
      · rw [hs]
        exact ⟨by decide, by decide⟩
      · rw [jsOr_eq_of_ne_nil _ _ hs]
        exact ⟨hs, all_alnum_weaken _ (sanitizeName_all_alnum _)⟩
    · exact ih h

theorem nameTail_good (css : Str) :
    nameTail css ≠ [] ∧
      (nameTail css).all (fun c => c.isAlphanum || c = '_') = true := by
  unfold nameTail
  cases hn : nameFromComments (commentScan css) with
  | some n => exact nameFromComments_good _ n hn
  | none =>
    cases hcl : classScan css with
    | nil => exact ⟨by decide, by decide⟩
    | cons firstClass l =>
      simp only [List.head?_cons]
      have hmem : firstClass ∈ classScan css := by
        rw [hcl]
        exact List.mem_cons_self _ _
      obtain ⟨c, rs, rfl, hca, hall⟩ :=
        classScanGo_mem (css.length + 1) css firstClass hmem
      exact classNameJoin_good c rs hca hall

theorem selectorRuleOf_shape (m : Str × Str × Str) (r : RawRule)
    (h : selectorRuleOf m = some r) :
    r.figmaComponent = none ∧
      (r.selector.contains '.' || r.selector.contains '#' ||
        hasSubstr r.selector (str "::")) = true := by
  simp only [selectorRuleOf] at h
  split at h
  · rw [Option.some_inj] at h
    subst h
    rename_i hcond
    simp only [Bool.and_eq_true] at hcond
    exact ⟨rfl, hcond.2⟩
  · exact absurd h (by simp)

theorem blockOf_shape (pr : Str × Str) (r : RawRule)
    (h : blockOf pr = some r) : ∃ n, r.figmaComponent = some n := by
  simp only [blockOf] at h
  split at h
  · split at h
    · rw [Option.some_inj] at h
      subst h
      exact ⟨_, rfl⟩
    · exact absurd h (by simp)
  · exact absurd h (by simp)

/-!
## Claim theorems
-/

/-- C1: the specification says `parseFigmaCss` never throws for malformed
CSS.  The code does throw: for the input `.a { border-radius }` the
declaration `border-radius` has no `:`, so `parseDeclarations` produces
`value = undefined`, and `convertCssToTailwind` reaches
`decl.value.includes('100px')` — a `TypeError`.  This theorem evaluates
the embedded pipeline at that failing input and observes the exception. -/
theorem parseFigmaCss_throws_on_colonless_border_radius :
    exceptOk (parseFigmaCss (str ".a \x7b border-radius \x7d")) = false := by
  decide

/-- C2: the parse-then-generate pipeline is deterministic — two runs on
the identical input produce byte-identical `jsx`, `css`, `html` and
`tailwindClasses`.  This holds because the embedded pipeline is a pure
function of its input (no randomness or timestamps occur in the core). -/
theorem runPipeline_deterministic (x : Str) (g1 g2 : GeneratedComponent)
    (h1 : runPipeline x = .ok g1) (h2 : runPipeline x = .ok g2) :
    g1.jsx = g2.jsx ∧ g1.css = g2.css ∧ g1.html = g2.html ∧
      g1.tailwindClasses = g2.tailwindClasses := by
  rw [h1] at h2
  injection h2 with h
  subst h
  exact ⟨rfl, rfl, rfl, rfl⟩

/-- Witness for C2 at the concrete input `""` (for which the pipeline
succeeds). -/
theorem runPipeline_deterministic_witness :
    ∃ g1 g2, runPipeline (str "") = .ok g1 ∧ runPipeline (str "") = .ok g2 ∧
      (g1.jsx = g2.jsx ∧ g1.css = g2.css ∧ g1.html = g2.html ∧
        g1.tailwindClasses = g2.tailwindClasses) := by
  match h : runPipeline (str "") with
  | .ok g => exact ⟨g, g, rfl, rfl, runPipeline_deterministic (str "") g g h h⟩
  | .error e =>
    have hok : exceptOk (runPipeline (str "")) = true := by decide
    rw [h] at hok
    simp [exceptOk] at hok

/-- C3 counterexample: for the input
`".btn { display: flex; }\n/* card */\ncolor: red;"` — which contains
both a real-selector rule and a comment-derived block — the first entry
of `parseCssRules` is the selector rule (`.btn`, no `figmaComponent`)
and the comment-derived block (`.card`) comes second, refuting the
claimed comment-blocks-first order. -/
theorem parseCssRules_comment_blocks_not_first :
    (parseCssRules (str ".btn \x7b display: flex; \x7d\n/* card */\ncolor: red;")).map
        (fun r => (r.selector, r.figmaComponent.isSome)) =
      [(str ".btn", false), (str ".card", true)] := by
  decide

/-- C3 (amended): `parseCssRules` lists the selector-based rules found by
the regex scan first, in order of discovery, followed by the
comment-derived (block-splitting) rules, in order of discovery — the
opposite grouping order of the one claimed. -/
theorem parseCssRules_selector_rules_first (css : Str) :
    ∃ pre post, parseCssRules css = pre ++ post ∧
      (∀ r ∈ pre, r.figmaComponent = none) ∧
      (∀ r ∈ post, r.figmaComponent ≠ none) := by
  refine ⟨(ruleScan css).filterMap selectorRuleOf, parseFigmaCssBlocks css, rfl, ?_, ?_⟩
  · intro r hr
    obtain ⟨m, _, hm⟩ := List.mem_filterMap.mp hr
    exact (selectorRuleOf_shape m r hm).1
  · intro r hr
    simp only [parseFigmaCssBlocks] at hr
    obtain ⟨pr, _, hpr⟩ := List.mem_filterMap.mp hr
    obtain ⟨n, hn⟩ := blockOf_shape pr r hpr
    simp [hn]

/-- Witness for C3's amended statement at a concrete input containing
both kinds of rules. -/
theorem parseCssRules_selector_rules_first_witness :
    ∃ pre post,
      parseCssRules (str ".btn \x7b color: red \x7d /* card */ margin: 0;") =
          pre ++ post ∧
        (∀ r ∈ pre, r.figmaComponent = none) ∧
        (∀ r ∈ post, r.figmaComponent ≠ none) :=
  parseCssRules_selector_rules_first
    (str ".btn \x7b color: red \x7d /* card */ margin: 0;")

/-- C4 counterexample: the namer's output need not be capitalized nor
purely alphanumeric.  `/* 12x */` passes the noise filters, sanitizes to
`"2x"` (only one leading non-letter is stripped), which is neither
default and starts with a digit; and `.foo_bar { color: red; }` yields
`"Foo_bar"`, which contains an underscore. -/
theorem extractComponentName_digit_and_underscore :
    extractComponentNameFromCss (str "/* 12x */") = str "2x" ∧
      str "2x" ≠ str "FigmaComponent" ∧ str "2x" ≠ str "FigmaButton" ∧
      ((extractComponentNameFromCss (str "/* 12x */")).headD ' ').isUpper = false ∧
      extractComponentNameFromCss (str ".foo_bar \x7b color: red; \x7d") = str "Foo_bar" ∧
      (extractComponentNameFromCss (str ".foo_bar \x7b color: red; \x7d")).all
          Char.isAlphanum = false := by
  decide

/-- C4 (amended): for every input the component name is non-empty and
consists only of ASCII alphanumerics and underscores (underscores can
enter through the class-selector fallback; a leading digit can survive
sanitization, so an uppercase first letter is not guaranteed). -/
theorem extractComponentName_nonempty_alnum_underscore (css : Str) :
    extractComponentNameFromCss css ≠ [] ∧
      (extractComponentNameFromCss css).all
        (fun c => c.isAlphanum || c = '_') = true := by
  unfold extractComponentNameFromCss
  cases hh : (commentScan css).head? with
  | none => exact nameTail_good css
  | some pr =>
    obtain ⟨full, cap⟩ := pr
    show (if figmaNoise1 (trim cap) = true then nameTail css
          else jsOr (sanitizeName (trim cap)) (str "FigmaComponent")) ≠ [] ∧
        (if figmaNoise1 (trim cap) = true then nameTail css
          else jsOr (sanitizeName (trim cap)) (str "FigmaComponent")).all
          (fun c => c.isAlphanum || c = '_') = true
    by_cases hf : figmaNoise1 (trim cap) = true
    · rw [if_pos hf]
      exact nameTail_good css
    · rw [if_neg hf]
      by_cases hs : sanitizeName (trim cap) = []
      · rw [hs]
        exact ⟨by decide, by decide⟩
      · rw [jsOr_eq_of_ne_nil _ _ hs]
        exact ⟨hs, all_alnum_weaken _ (sanitizeName_all_alnum _)⟩

/-- C5 counterexample: `parseDeclarations` neither keeps a value whole
across further colons nor skips colon-less segments: `"a:b:c"` yields
value `"b"` (truncated at the second `:`), and in `"flex; color: red"`
the colon-less segment `flex` contributes an entry with an undefined
value instead of being skipped. -/
theorem parseDeclarations_truncates_and_keeps_colonless :
    parseDeclarations (str "a:b:c") = [⟨str "a", some (str "b")⟩] ∧
      parseDeclarations (str "flex; color: red") =
        [⟨str "flex", none⟩, ⟨str "color", some (str "red")⟩] := by
  decide

/-- C5 (amended): `parseDeclarations` splits on `;` and drops segments
whose trim is empty; a segment containing two (or more) colons is split
at every `:` and only the first two trimmed pieces are kept, so the value
is truncated at the second colon; a segment with no colon yields an entry
whose value is undefined (`none`) rather than being skipped.  Stated for
a segment `a:b:c` and a colon-less segment `a` built from
colon/semicolon-free parts. -/
theorem parseDeclarations_segment_behavior (a b c : Str)
    (ha1 : ∀ x ∈ a, x ≠ ':') (hb1 : ∀ x ∈ b, x ≠ ':') (hc1 : ∀ x ∈ c, x ≠ ':')
    (ha2 : ∀ x ∈ a, x ≠ ';') (hb2 : ∀ x ∈ b, x ≠ ';') (hc2 : ∀ x ∈ c, x ≠ ';')
    (ha3 : ∃ x ∈ a, isWsChar x = false) :
    parseDeclarations (a ++ ':' :: (b ++ ':' :: c)) = [⟨trim a, some (trim b)⟩] ∧
      parseDeclarations a = [⟨trim a, none⟩] := by
  have whole_no_semi : ∀ x ∈ a ++ ':' :: (b ++ ':' :: c), x ≠ ';' := by
    intro x hx
    rcases List.mem_append.mp hx with h | h
    · exact ha2 x h
    · rcases List.mem_cons.mp h with h2 | h2
      · subst h2; decide
      · rcases List.mem_append.mp h2 with h3 | h3
        · exact hb2 x h3
        · rcases List.mem_cons.mp h3 with h4 | h4
          · subst h4; decide
          · exact hc2 x h4
  have colon_mem : (':' : Char) ∈ a ++ ':' :: (b ++ ':' :: c) :=
    List.mem_append.mpr (Or.inr (List.mem_cons_self _ _))
  have trim_whole : trim (a ++ ':' :: (b ++ ':' :: c)) ≠ [] :=
    trim_ne_nil _ ':' colon_mem (by decide)
  have hbe : (!(trim (a ++ ':' :: (b ++ ':' :: c))).isEmpty) = true := by
    cases h : trim (a ++ ':' :: (b ++ ':' :: c)) with
    | nil => exact absurd h trim_whole
    | cons x xs => rfl
  obtain ⟨xa, hxa, hxw⟩ := ha3
  have trim_a : trim a ≠ [] := trim_ne_nil a xa hxa hxw
  have hbea : (!(trim a).isEmpty) = true := by
    cases h : trim a with
    | nil => exact absurd h trim_a
    | cons x xs => rfl
  constructor
  · unfold parseDeclarations
    rw [splitOnChar_no_sep ';' _ whole_no_semi, List.filter_singleton, hbe, Bool.cond_true]
    simp only [List.map_cons, List.map_nil]
    rw [splitOnChar_append ':' a (b ++ ':' :: c) ha1,
      splitOnChar_append ':' b c hb1, splitOnChar_no_sep ':' c hc1]
    rfl
  · unfold parseDeclarations
    rw [splitOnChar_no_sep ';' a ha2, List.filter_singleton, hbea, Bool.cond_true]
    simp only [List.map_cons, List.map_nil]
    rw [splitOnChar_no_sep ':' a ha1]
    rfl

/-- Witness for C5's amended statement: `"color: url(a:b)"` parses to
property `color` with value `url(a` (truncated), and the lone segment
`"color"` parses to an undefined value. -/
theorem parseDeclarations_segment_behavior_witness :
    parseDeclarations (str "color" ++ ':' :: (str " url(a" ++ ':' :: str "b)")) =
        [⟨trim (str "color"), some (trim (str " url(a"))⟩] ∧
      parseDeclarations (str "color") = [⟨trim (str "color"), none⟩] :=
  parseDeclarations_segment_behavior (str "color") (str " url(a") (str "b)")
    (by decide) (by decide) (by decide) (by decide) (by decide) (by decide)
    ⟨'c', by decide, by decide⟩

/-- C6 counterexample: for `.a { color: red; color: blue }` the returned
parse result's rule holds a single `properties` binding
`color ↦ blue` — the `reduce` at lines 93–100 collapses the duplicate
last-wins, so both declarations are *not* retained in the parse result. -/
theorem parsed_properties_collapse_duplicates :
    (parseFigmaCss (str ".a \x7b color: red; color: blue \x7d")).toOption.map
        (fun p => p.cssRules.map (fun r => r.properties)) =
      some [[(str "color", some (str "blue"))]] := by
  decide

/-- C6 (amended): for the duplicate-property input both declarations are
retained, in source order, in the *internal* rule list built by
`parseCssRules` (which feeds the CSS emitter and the Tailwind
translator), while the returned `ParsedCSS.cssRules[].properties` record
collapses them last-wins (previous theorem). -/
theorem parseCssRules_retains_duplicates :
    (parseCssRules (str ".a \x7b color: red; color: blue \x7d")).map
        (fun r => r.declarations) =
      [[⟨str "color", some (str "red")⟩, ⟨str "color", some (str "blue")⟩]] := by
  decide

/-- C7: the end-to-end scenario.  For the comment-labelled block
`/* button */` with `display: flex; padding: 8px; background: #F1F1F1;
border-radius: 100px;` the pipeline derives component name `Button`, a
Tailwind class string containing `flex`, `p-4` and `rounded-full`, and
`customStyles` containing `background-color: #F1F1F1`. -/
theorem pipeline_button_scenario :
    ((parseFigmaCss (str "/* button */\ndisplay: flex;\npadding: 8px;\nbackground: #F1F1F1;\nborder-radius: 100px;")).toOption.map
        (fun p => p.componentName) = some (str "Button")) ∧
      ((parseFigmaCss (str "/* button */\ndisplay: flex;\npadding: 8px;\nbackground: #F1F1F1;\nborder-radius: 100px;")).toOption.map
        (fun p =>
          hasSubstr p.tailwindClasses.main (str "flex") &&
            hasSubstr p.tailwindClasses.main (str "p-4") &&
            hasSubstr p.tailwindClasses.main (str "rounded-full")) = some true) ∧
      ((parseFigmaCss (str "/* button */\ndisplay: flex;\npadding: 8px;\nbackground: #F1F1F1;\nborder-radius: 100px;")).toOption.map
        (fun p =>
          p.tailwindClasses.customStyles.contains (str "background-color: #F1F1F1")) =
        some true) := by
  decide

/-- C8 counterexample: the memo key keeps only the length and the first
100 characters, so two distinct inputs of equal length sharing a
100-character prefix collide; the memoized parser then returns the first
input's cached result for the second input, which differs from what the
unmemoized function returns (the line counts differ). -/
theorem memoized_parser_key_collision :
    (List.replicate 100 'a' ++ str "\nb") ≠ (List.replicate 100 'a' ++ str "bb") ∧
      memoRun2 (List.replicate 100 'a' ++ str "\nb")
          (List.replicate 100 'a' ++ str "bb") ≠
        rawCssParse (List.replicate 100 'a' ++ str "bb") := by
  decide

/-- C8 (amended): the memoized parser agrees with the unmemoized one
whenever the two inputs' keys differ (different length or different
100-character prefix), and repeated calls with the identical input
return the cached first result, which equals the unmemoized result. -/
theorem memoized_parser_agrees (s1 s2 : Str) :
    (memoKey s1 ≠ memoKey s2 → memoRun2 s1 s2 = rawCssParse s2) ∧
      memoRun2 s1 s1 = rawCssParse s1 := by
  have h1 : memoCssParser [] s1 = (rawCssParse s1, [(memoKey s1, rawCssParse s1)]) := by
    simp [memoCssParser, assocGet]
  constructor
  · intro hne
    simp [memoRun2, h1, memoCssParser, assocGet, hne]
  · simp [memoRun2, h1, memoCssParser, assocGet]

/-- Witness for C8's amended statement at two inputs with different
keys, and at one repeated input. -/
theorem memoized_parser_agrees_witness :
    memoKey (str "a") ≠ memoKey (str "bb") ∧
      memoRun2 (str "a") (str "bb") = rawCssParse (str "bb") ∧
      memoRun2 (str "a") (str "a") = rawCssParse (str "a") :=
  ⟨by decide, (memoized_parser_agrees (str "a") (str "bb")).1 (by decide),
    (memoized_parser_agrees (str "a") (str "a")).2⟩

/-- C9: every entry of `parseCssRules` is either a comment-derived block
(`figmaComponent` present) or has a selector mentioning `.`, `#` or
`::`; in particular `button { color: red; }` contributes no rule at all,
while the same selector still reaches the HTML-structure scan. -/
theorem rules_need_class_id_pseudo_or_comment :
    (∀ css : Str, ∀ r ∈ parseCssRules css,
        r.figmaComponent ≠ none ∨
          (r.selector.contains '.' || r.selector.contains '#' ||
            hasSubstr r.selector (str "::")) = true) ∧
      parseCssRules (str "button \x7b color: red; \x7d") = [] ∧
      (extractHtmlStructure (str "button \x7b color: red; \x7d")).hierarchy.map
          (fun g => g.selector) = [str "button"] := by
  refine ⟨?_, by decide, by decide⟩
  intro css r hr
  simp only [parseCssRules] at hr
  rcases List.mem_append.mp hr with h | h
  · obtain ⟨m, _, hm⟩ := List.mem_filterMap.mp h
    exact Or.inr (selectorRuleOf_shape m r hm).2
  · simp only [parseFigmaCssBlocks] at h
    obtain ⟨pr, _, hpr⟩ := List.mem_filterMap.mp h
    obtain ⟨n, hn⟩ := blockOf_shape pr r hpr
    exact Or.inl (by simp [hn])

/-- Witness for C9's general invariant at a concrete rule of a concrete
input. -/
theorem rules_need_class_id_pseudo_or_comment_witness :
    ((⟨str ".z", [⟨str "p", some (str "q")⟩], str ".z \x7b p: q \x7d", none⟩ : RawRule) ∈
        parseCssRules (str ".z \x7b p: q \x7d")) ∧
      ((⟨str ".z", [⟨str "p", some (str "q")⟩], str ".z \x7b p: q \x7d", none⟩ : RawRule).figmaComponent ≠ none ∨
        ((⟨str ".z", [⟨str "p", some (str "q")⟩], str ".z \x7b p: q \x7d", none⟩ : RawRule).selector.contains '.' ||
          (⟨str ".z", [⟨str "p", some (str "q")⟩], str ".z \x7b p: q \x7d", none⟩ : RawRule).selector.contains '#' ||
          hasSubstr (⟨str ".z", [⟨str "p", some (str "q")⟩], str ".z \x7b p: q \x7d", none⟩ : RawRule).selector (str "::")) = true) := by
  have hmem : (⟨str ".z", [⟨str "p", some (str "q")⟩], str ".z \x7b p: q \x7d", none⟩ : RawRule) ∈
      parseCssRules (str ".z \x7b p: q \x7d") := by decide
  exact ⟨hmem, rules_need_class_id_pseudo_or_comment.1 _ _ hmem⟩

/-- C10: when the first comment passes the noise filters but sanitizes
to the empty string, the namer returns `"FigmaComponent"` immediately
(without consulting later comments or class selectors), whereas an input
with no comment match and no class match yields the distinct default
`"FigmaButton"`. -/
theorem namer_two_distinct_defaults :
    (∀ css full cap : Str, (commentScan css).head? = some (full, cap) →
        figmaNoise1 (trim cap) = false → sanitizeName (trim cap) = [] →
        extractComponentNameFromCss css = str "FigmaComponent") ∧
      (∀ css : Str, commentScan css = [] → classScan css = [] →
        extractComponentNameFromCss css = str "FigmaButton") := by
  constructor
  · intro css full cap hhead hnoise hsan
    unfold extractComponentNameFromCss
    rw [hhead]
    show (if figmaNoise1 (trim cap) = true then nameTail css
          else jsOr (sanitizeName (trim cap)) (str "FigmaComponent")) =
        str "FigmaComponent"
    rw [if_neg (by simp [hnoise]), hsan]
    rfl
  · intro css h1 h2
    unfold extractComponentNameFromCss nameTail
    rw [h1, h2]
    rfl

/-- Witness for C10: `/* !!! */ /* nice */ .good { c: d }` has a
first comment that passes the filters but sanitizes to nothing — the
namer answers `"FigmaComponent"` even though a usable comment and a
class selector follow; the input `hello` (no comments, no classes)
yields `"FigmaButton"`. -/
theorem namer_two_distinct_defaults_witness :
    ((commentScan (str "/* !!! */ /* nice */ .good \x7b c: d \x7d")).head? =
        some (str "/* !!! */", str "!!! ") ∧
      figmaNoise1 (trim (str "!!! ")) = false ∧
      sanitizeName (trim (str "!!! ")) = [] ∧
      extractComponentNameFromCss (str "/* !!! */ /* nice */ .good \x7b c: d \x7d") =
        str "FigmaComponent") ∧
      (commentScan (str "hello") = [] ∧ classScan (str "hello") = [] ∧
        extractComponentNameFromCss (str "hello") = str "FigmaButton") := by
  refine ⟨⟨by decide, by decide, by decide, ?_⟩, ⟨by decide, by decide, ?_⟩⟩
  · exact namer_two_distinct_defaults.1
      (str "/* !!! */ /* nice */ .good \x7b c: d \x7d")
      (str "/* !!! */") (str "!!! ") (by decide) (by decide) (by decide)
  · exact namer_two_distinct_defaults.2 (str "hello") (by decide) (by decide)
